import Mathlib

/-!
Verification of the recipe-app backend core: the ownership-scoped
recipe/tag/ingredient data model, the user store, and the access-scoped
query layer.  Definitions are a shallow embedding of the repository's
Python sources (`app/core/models.py`, `app/recipe/views.py`,
`app/user/serializers.py`); parts of the repository delegated to the web
framework, and repository files absent from the source tree
(`app/recipe/serializers.py`), are modelled from the specification and
marked as such in their doc comments.
-/

namespace RecipeApp

/-- User row, from `core/models.py` class `User`: email (unique), name,
is_active, is_staff, plus the hashed password field provided by the
framework's `AbstractBaseUser` base class and the `is_superuser` flag from
`PermissionsMixin`.  The primary key `id` is the implicit ORM field. -/
structure User where
  id : Nat
  email : String
  name : String
  password : String
  is_active : Bool
  is_staff : Bool
  is_superuser : Bool
deriving Repr, DecidableEq

/-- Tag row: `{name, user}` with primary key `id` (owner kept as user id). -/
structure Tag where
  id : Nat
  name : String
  user : Nat
deriving Repr, DecidableEq

/-- Ingredient row: `{name, user}` with primary key `id`. -/
structure Ingredient where
  id : Nat
  name : String
  user : Nat
deriving Repr, DecidableEq

/-- Recipe row: scalar fields plus owner and the many-to-many tag and
ingredient attachment sets, kept as lists of row ids. -/
structure Recipe where
  id : Nat
  title : String
  description : String
  time_minutes : Int
  price : Rat
  link : String
  user : Nat
  tags : List Nat
  ingredients : List Nat
deriving Repr, DecidableEq

/-- The relational store: one table per model plus the next fresh primary
key handed out by the persistence layer. -/
structure DB where
  users : List User
  tags : List Tag
  ingredients : List Ingredient
  recipes : List Recipe
  next_id : Nat
deriving Repr, DecidableEq

/-- The empty database. -/
def DB.empty : DB := { users := [], tags := [], ingredients := [], recipes := [], next_id := 0 }

/-- Error kinds surfaced by the core, named after the Python exception
classes the code raises: `valueError` for `raise ValueError`,
`validationError` for the serializer-layer `ValidationError`, `notFound`
for the not-owned/absent case. -/
inductive Err where
  | valueError : Err
  | validationError : Err
  | notFound : Err
deriving Repr, DecidableEq

/-- Modelled from the spec: the external password hashing facility
(`AbstractBaseUser.set_password`, framework code).  A one-way salted hash;
modelled as an injective tagging function that never returns its input. -/
def hashPassword (p : String) : String := "pbkdf2_sha256$" ++ p

/-- Modelled from the spec: the framework's password verifier
(`check_password`): compares the stored field with the hash of the raw
password. -/
def check_password (raw stored : String) : Bool := stored == hashPassword raw

/-- Split a character list at its LAST occurrence of `sep`, returning the
part before and the part after; `none` when `sep` does not occur. -/
def rsplitAtChar (sep : Char) : List Char → Option (List Char × List Char)
  | [] => none
  | c :: cs =>
    match rsplitAtChar sep cs with
    | some (l, r) => some (c :: l, r)
    | none => if c = sep then some ([], cs) else none

/-- Modelled from the spec: `BaseUserManager.normalize_email` (framework
code): lower-cases the domain portion (the part after the last `'@'`) and
preserves the local portion; a string without `'@'` is returned unchanged. -/
def normalize_email (email : String) : String :=
  match rsplitAtChar '@' email.data with
  | some (l, d) => String.mk (l ++ '@' :: d.map Char.toLower)
  | none => email

/-- From `core/models.py` `UserManager.create_user`: rejects an empty
email with `ValueError`, normalizes the email, builds the user from the
extra fields (here: `name`), sets the encrypted password, and persists.
Returns the persisted user together with the new store. -/
def create_user (db : DB) (email password nm : String) : Except Err (DB × User) :=
  if email = "" then .error .valueError
  else
    let u : User :=
      { id := db.next_id
        email := normalize_email email
        name := nm
        password := hashPassword password
        is_active := true
        is_staff := false
        is_superuser := false }
    .ok ({ db with users := db.users ++ [u], next_id := db.next_id + 1 }, u)

/-- From `core/models.py` `UserManager.create_superuser`: `create_user`
then sets `is_staff` and `is_superuser` and saves again. -/
def create_superuser (db : DB) (email password : String) : Except Err (DB × User) :=
  match create_user db email password "" with
  | .error e => .error e
  | .ok (db1, u) =>
    let u2 := { u with is_staff := true, is_superuser := true }
    .ok ({ db1 with users := db1.users.map (fun x => if x.id == u.id then u2 else x) }, u2)

/-- Modelled from the spec: the framework's `authenticate` backend, which
looks the user up by the `USERNAME_FIELD` (email, per `core/models.py`)
and verifies the password hash, also requiring an active account; returns
no user on unknown email or hash mismatch, without distinguishing the two. -/
def authenticate (db : DB) (email password : String) : Option User :=
  match db.users.find? (fun u => u.email == email) with
  | some u => if check_password password u.password && u.is_active then some u else none
  | none => none

/-- The single failure message raised by `AuthTokenSerializer.validate`. -/
def authFailureMsg : String := "Unable to authenticate with provided credentials."

/-- From `user/serializers.py` `AuthTokenSerializer.validate`: runs
`authenticate` with the supplied email and password; if no user comes
back, raises `ValidationError` with one fixed message, otherwise returns
the authenticated user. -/
def AuthTokenSerializer.validate (db : DB) (email password : String) : Except String User :=
  match authenticate db email password with
  | some u => .ok u
  | none => .error authFailureMsg

/-- From `user/serializers.py` `UserSerializer` `extra_kwargs`: the
password field carries `min_length: 5`; the framework rejects any payload
whose password is shorter than 5 characters before `create`/`update` run. -/
def passwordFieldValid (p : String) : Bool := 5 ≤ p.length

/-- From `user/serializers.py` `UserSerializer.create`: after field
validation succeeds, delegates to `create_user` with the validated data. -/
def UserSerializer.create (db : DB) (email password nm : String) : Except Err (DB × User) :=
  if passwordFieldValid password then create_user db email password nm
  else .error .validationError

/-- Partial-update payload for the user serializer: only present keys are
applied. -/
structure UserPatch where
  email : Option String
  name : Option String
  password : Option String
deriving Repr, DecidableEq

/-- From `user/serializers.py` `UserSerializer.update`: validates the
fields (password `min_length: 5` when present), pops the password, lets
the model serializer set the remaining present fields, then sets the
encrypted password if one was supplied. -/
def UserSerializer.update (db : DB) (uid : Nat) (p : UserPatch) : Except Err (DB × User) :=
  if (p.password.map passwordFieldValid).getD true = false then .error .validationError
  else
    match db.users.find? (fun u => u.id == uid) with
    | none => .error .notFound
    | some u =>
      let u2 : User :=
        { u with
          email := (p.email.map normalize_email).getD u.email
          name := p.name.getD u.name
          password := (p.password.map hashPassword).getD u.password }
      .ok ({ db with users := db.users.map (fun x => if x.id == uid then u2 else x) }, u2)

/-- Scalar fields of a recipe-create request. -/
structure RecipeFields where
  title : String
  description : String
  time_minutes : Int
  price : Rat
  link : String
deriving Repr, DecidableEq

/-- Partial-update payload for a recipe: only present keys are applied;
`tags` / `ingredients`, when present, carry the nested name lists. -/
structure RecipePatch where
  title : Option String
  description : Option String
  time_minutes : Option Int
  price : Option Rat
  link : Option String
  tags : Option (List String)
  ingredients : Option (List String)
deriving Repr, DecidableEq

/-- Modelled from the spec: one step of the recipe serializer's
`_get_or_create` helper (`recipe/serializers.py`, absent from the source
tree) for tags: look up a tag with `user == owner AND name == name`;
reuse it if found, otherwise create a new row owned by the current user. -/
def getOrCreateTag (db : DB) (uid : Nat) (nm : String) : DB × Nat :=
  match db.tags.find? (fun t => t.user == uid && t.name == nm) with
  | some t => (db, t.id)
  | none =>
    ({ db with
        tags := db.tags ++ [{ id := db.next_id, name := nm, user := uid }]
        next_id := db.next_id + 1 },
      db.next_id)

/-- Modelled from the spec: the ingredient instance of `_get_or_create`,
run against the per-user ingredient registry. -/
def getOrCreateIngredient (db : DB) (uid : Nat) (nm : String) : DB × Nat :=
  match db.ingredients.find? (fun i => i.user == uid && i.name == nm) with
  | some i => (db, i.id)
  | none =>
    ({ db with
        ingredients := db.ingredients ++ [{ id := db.next_id, name := nm, user := uid }]
        next_id := db.next_id + 1 },
      db.next_id)

/-- Modelled from the spec: resolve an ordered list of nested tag names
through get-or-create, returning the new store and the attachment ids. -/
def resolveTags (db : DB) (uid : Nat) : List String → DB × List Nat
  | [] => (db, [])
  | nm :: rest =>
    let p := getOrCreateTag db uid nm
    let q := resolveTags p.1 uid rest
    (q.1, p.2 :: q.2)

/-- Modelled from the spec: resolve an ordered list of nested ingredient
names through get-or-create. -/
def resolveIngredients (db : DB) (uid : Nat) : List String → DB × List Nat
  | [] => (db, [])
  | nm :: rest =>
    let p := getOrCreateIngredient db uid nm
    let q := resolveIngredients p.1 uid rest
    (q.1, p.2 :: q.2)

/-- Replace every recipe row carrying `r.id` with `r` (the ORM's save of
an updated row / many-to-many attachment set). -/
def saveRecipeRow (rs : List Recipe) (r : Recipe) : List Recipe :=
  rs.map (fun x => if x.id == r.id then r else x)

/-- The recipe row built from the scalar fields of a create request,
before any attachments. -/
def newRecipeRow (db : DB) (uid : Nat) (f : RecipeFields) : Recipe :=
  { id := db.next_id
    title := f.title
    description := f.description
    time_minutes := f.time_minutes
    price := f.price
    link := f.link
    user := uid
    tags := []
    ingredients := [] }

/-- Persist a freshly built recipe row. -/
def recipeInsertDB (db : DB) (r0 : Recipe) : DB :=
  { db with recipes := db.recipes ++ [r0], next_id := db.next_id + 1 }

/-- Modelled from the spec: the recipe serializer's create
(`recipe/serializers.py`, absent from the source tree): validates
`time_minutes > 0` and `price >= 0`, builds the recipe from the scalar
fields and persists it, then runs get-or-create for the supplied tag and
ingredient name lists and attaches the results. -/
def create_recipe (db : DB) (uid : Nat) (f : RecipeFields)
    (tag_names ingredient_names : List String) : Except Err (DB × Recipe) :=
  if f.time_minutes ≤ 0 ∨ f.price < 0 then .error .validationError
  else
    let r0 := newRecipeRow db uid f
    let db1 := recipeInsertDB db r0
    let pt := resolveTags db1 uid tag_names
    let pi := resolveIngredients pt.1 uid ingredient_names
    let r : Recipe := { r0 with tags := pt.2, ingredients := pi.2 }
    .ok ({ pi.1 with recipes := saveRecipeRow pi.1.recipes r }, r)

/-- Ownership-scoped lookup of a recipe: the detail queryset is filtered
to `user == current_user`, so another user's recipe behaves as absent. -/
def findRecipe (db : DB) (uid rid : Nat) : Option Recipe :=
  db.recipes.find? (fun r => r.user == uid && r.id == rid)

/-- Modelled from the spec: the recipe serializer's partial update
(`recipe/serializers.py`, absent from the source tree): not-found when the
id is not owned by the caller; validates the effective `time_minutes` and
`price`; when the `tags` or `ingredients` key is present, clears that
relation and re-attaches the get-or-create resolution of the supplied
names (full replacement); scalar fields not present are left untouched. -/
def update_recipe (db : DB) (uid rid : Nat) (p : RecipePatch) : Except Err (DB × Recipe) :=
  match findRecipe db uid rid with
  | none => .error .notFound
  | some r =>
    let tm := p.time_minutes.getD r.time_minutes
    let pr := p.price.getD r.price
    if tm ≤ 0 ∨ pr < 0 then .error .validationError
    else
      let pt : DB × List Nat :=
        match p.tags with
        | some names => resolveTags db uid names
        | none => (db, r.tags)
      let pi : DB × List Nat :=
        match p.ingredients with
        | some names => resolveIngredients pt.1 uid names
        | none => (pt.1, r.ingredients)
      let r2 : Recipe :=
        { r with
          title := p.title.getD r.title
          description := p.description.getD r.description
          time_minutes := tm
          price := pr
          link := p.link.getD r.link
          tags := pt.2
          ingredients := pi.2 }
      .ok ({ pi.1 with recipes := saveRecipeRow pi.1.recipes r2 }, r2)

/-- Delete a recipe through the ownership-scoped queryset. -/
def delete_recipe (db : DB) (uid rid : Nat) : Except Err DB :=
  match findRecipe db uid rid with
  | none => .error .notFound
  | some r => .ok { db with recipes := db.recipes.filter (fun x => !(x.id == r.id)) }

/-- Ordering used by `RecipeViewSet.get_queryset`'s `order_by('-id')`:
descending primary key. -/
def recipeOrd (a b : Recipe) : Prop := b.id ≤ a.id

instance : DecidableRel recipeOrd := fun a b => Nat.decLe b.id a.id

instance : IsTotal Recipe recipeOrd := ⟨fun a b => Nat.le_total b.id a.id⟩

instance : IsTrans Recipe recipeOrd := ⟨fun _ _ _ h1 h2 => Nat.le_trans h2 h1⟩

/-- Ordering used by `BaseRecipeAttrViewSet.get_queryset`'s
`order_by('-name')`: descending name. -/
def tagOrd (a b : Tag) : Prop := b.name ≤ a.name

instance : DecidableRel tagOrd := fun a b => String.decidableLE b.name a.name

instance : IsTotal Tag tagOrd := ⟨fun a b => le_total b.name a.name⟩

instance : IsTrans Tag tagOrd := ⟨fun _ _ _ h1 h2 => le_trans h2 h1⟩

/-- Descending-name ordering for ingredients, same `order_by('-name')`. -/
def ingredientOrd (a b : Ingredient) : Prop := b.name ≤ a.name

instance : DecidableRel ingredientOrd := fun a b => String.decidableLE b.name a.name

instance : IsTotal Ingredient ingredientOrd := ⟨fun a b => le_total b.name a.name⟩

instance : IsTrans Ingredient ingredientOrd := ⟨fun _ _ _ h1 h2 => le_trans h2 h1⟩

/-- From `recipe/views.py` `RecipeViewSet.get_queryset`:
`self.queryset.filter(user=self.request.user).order_by('-id')`. -/
def RecipeViewSet.get_queryset (db : DB) (uid : Nat) : List Recipe :=
  List.insertionSort recipeOrd (db.recipes.filter (fun r => r.user == uid))

/-- From `recipe/views.py` `BaseRecipeAttrViewSet.get_queryset` as
inherited by `TagViewSet`:
`self.queryset.filter(user=self.request.user).order_by('-name')`. -/
def TagViewSet.get_queryset (db : DB) (uid : Nat) : List Tag :=
  List.insertionSort tagOrd (db.tags.filter (fun t => t.user == uid))

/-- From `recipe/views.py` `BaseRecipeAttrViewSet.get_queryset` as
inherited by `IngredientViewSet`. -/
def IngredientViewSet.get_queryset (db : DB) (uid : Nat) : List Ingredient :=
  List.insertionSort ingredientOrd (db.ingredients.filter (fun i => i.user == uid))

/-- Detail retrieval: the framework resolves the pk inside the
ownership-filtered queryset. -/
def RecipeViewSet.retrieve (db : DB) (uid rid : Nat) : Option Recipe :=
  (RecipeViewSet.get_queryset db uid).find? (fun r => r.id == rid)

/-- Number of tag rows owned by a user. -/
def userTagCount (db : DB) (uid : Nat) : Nat :=
  (db.tags.filter (fun t => t.user == uid)).length

/-! Concrete stores used by witnesses and counterexamples. -/

/-- A user whose email is known, with the hash of `"rightpw"` stored. -/
def knownUser : User :=
  { id := 0, email := "known@x.com", name := "K", password := hashPassword "rightpw",
    is_active := true, is_staff := false, is_superuser := false }

/-- Store holding only `knownUser`. -/
def oneUserDB : DB :=
  { users := [knownUser], tags := [], ingredients := [], recipes := [], next_id := 1 }

/-- Store holding the two tags of the spec's ordering example, owned by
user 1. -/
def twoTagDB : DB :=
  { users := [], tags := [{ id := 1, name := "Kale", user := 1 }, { id := 2, name := "Vanilla", user := 1 }],
    ingredients := [], recipes := [], next_id := 3 }

/-- The user row `create_user` persists for `a@b.com` / `pw12345`. -/
def wUser6 : User :=
  { id := 0, email := "a@b.com", name := "", password := hashPassword "pw12345",
    is_active := true, is_staff := false, is_superuser := false }

/-- The store after that creation. -/
def wDB6 : DB :=
  { users := [wUser6], tags := [], ingredients := [], recipes := [], next_id := 1 }

/-- A recipe owned by user 1. -/
def wRecipe : Recipe :=
  { id := 5, title := "Pie", description := "", time_minutes := 10, price := 3, link := "",
    user := 1, tags := [], ingredients := [] }

/-- A recipe owned by user 2. -/
def otherRecipe : Recipe :=
  { id := 7, title := "Soup", description := "", time_minutes := 10, price := 3, link := "",
    user := 2, tags := [], ingredients := [] }

/-- Store holding only user 1's recipe. -/
def wRecipeDB : DB :=
  { users := [], tags := [], ingredients := [], recipes := [wRecipe], next_id := 6 }

/-- An ingredient owned by user 1. -/
def wIng : Ingredient := { id := 3, name := "Salt", user := 1 }

/-- User 1's recipe with `wIng` attached. -/
def wRecipeWithIng : Recipe :=
  { id := 5, title := "Pie", description := "", time_minutes := 10, price := 3, link := "",
    user := 1, tags := [], ingredients := [3] }

/-- Store holding `wIng` and `wRecipeWithIng`. -/
def wIngDB : DB :=
  { users := [], tags := [], ingredients := [wIng], recipes := [wRecipeWithIng], next_id := 6 }

/-- The same store after the ingredients of recipe 5 are cleared. -/
def wIngDB2 : DB :=
  { users := [], tags := [], ingredients := [wIng], recipes := [wRecipe], next_id := 6 }

/-- Partial-update payload carrying only `ingredients: []`. -/
def wPatch : RecipePatch :=
  { title := none, description := none, time_minutes := none,
    price := none, link := none, tags := none, ingredients := some [] }

/-- Scalar fields of a concrete create request. -/
def wFields : RecipeFields :=
  { title := "Pie", description := "", time_minutes := 10, price := 3, link := "" }

/-- User 2's recipe. -/
def r9 : Recipe :=
  { id := 9, title := "Stew", description := "", time_minutes := 20, price := 2, link := "",
    user := 2, tags := [], ingredients := [] }

/-- Store where user 2 owns one recipe, one tag and one ingredient. -/
def w3DB : DB :=
  { users := [], tags := [{ id := 1, name := "Zest", user := 2 }],
    ingredients := [{ id := 2, name := "Salt", user := 2 }], recipes := [r9], next_id := 10 }

/-- The recipe user 1 creates on top of `w3DB`. -/
def rc3 : Recipe :=
  { id := 10, title := "Pie", description := "", time_minutes := 10, price := 3, link := "",
    user := 1, tags := [11], ingredients := [12] }

/-- `w3DB` after user 1's create: user 1 gets a new `Salt` ingredient row
rather than user 2's. -/
def db2c3 : DB :=
  { users := [],
    tags := [{ id := 1, name := "Zest", user := 2 }, { id := 11, name := "Vegan", user := 1 }],
    ingredients := [{ id := 2, name := "Salt", user := 2 }, { id := 12, name := "Salt", user := 1 }],
    recipes := [r9, rc3], next_id := 13 }

/-- Recipe persisted by the first `["Vegan", "Dinner"]` create from the
empty store. -/
def rc1w : Recipe :=
  { id := 0, title := "Pie", description := "", time_minutes := 10, price := 3, link := "",
    user := 1, tags := [1, 2], ingredients := [] }

/-- Recipe persisted by the second, identical create. -/
def rc2w : Recipe :=
  { id := 3, title := "Pie", description := "", time_minutes := 10, price := 3, link := "",
    user := 1, tags := [1, 2], ingredients := [] }

/-- Store after the first create: two tag rows. -/
def db1c : DB :=
  { users := [],
    tags := [{ id := 1, name := "Vegan", user := 1 }, { id := 2, name := "Dinner", user := 1 }],
    ingredients := [], recipes := [rc1w], next_id := 3 }

/-- Store after the second create: still two tag rows, reused. -/
def db2cc : DB :=
  { users := [],
    tags := [{ id := 1, name := "Vegan", user := 1 }, { id := 2, name := "Dinner", user := 1 }],
    ingredients := [], recipes := [rc1w, rc2w], next_id := 4 }

/-- States, as a Bool, the claim's ordering property for a tag listing:
consecutive names are in ascending order. -/
def ascendingByName : List String → Bool
  | [] => true
  | [_] => true
  | a :: b :: rest => decide (a ≤ b) && ascendingByName (b :: rest)

/-! Helper lemmas. -/

/-- If a user owns no tags, every get-or-create lookup for that user
misses. -/
theorem tags_find?_none_of_filter_nil {db : DB} {uid : Nat}
    (h : db.tags.filter (fun t => t.user == uid) = []) (nm : String) :
    db.tags.find? (fun t => t.user == uid && t.name == nm) = none := by
  rw [List.find?_eq_none]
  intro t ht
  have := List.filter_eq_nil_iff.mp h t ht
  simp only [Bool.not_eq_true] at this
  simp [this]

/-- Appending rows that all fail the filter leaves the filter unchanged. -/
theorem filter_append_nil {α : Type} (p : α → Bool) (l L : List α)
    (h : ∀ x ∈ L, p x = false) : (l ++ L).filter p = l.filter p := by
  rw [List.filter_append l L]
  have hL : List.filter p L = [] := by
    apply List.filter_eq_nil_iff.mpr
    intro a ha
    simp [h a ha]
  rw [hL, List.append_nil]

/-- Saving an updated row into a table whose other rows have different
ids rewrites exactly the appended row. -/
theorem saveRecipeRow_append_fresh (l : List Recipe) (r0 r : Recipe)
    (h : ∀ x ∈ l, x.id ≠ r.id) (hid : r0.id = r.id) :
    saveRecipeRow (l ++ [r0]) r = l ++ [r] := by
  unfold saveRecipeRow
  rw [List.map_append]
  have h1 : l.map (fun x => if x.id == r.id then r else x) = l := by
    conv_rhs => rw [← List.map_id l]
    apply List.map_congr_left
    intro x hx
    simp [h x hx]
  rw [h1]
  simp [hid]

/-- `resolveTags` only appends tag rows, all owned by the requesting
user, and leaves every other table unchanged. -/
theorem resolveTags_spec (uid : Nat) : ∀ (names : List String) (db : DB),
    ∃ L : List Tag,
      (resolveTags db uid names).1.tags = db.tags ++ L ∧
      (∀ t ∈ L, t.user = uid) ∧
      (resolveTags db uid names).1.recipes = db.recipes ∧
      (resolveTags db uid names).1.ingredients = db.ingredients ∧
      (resolveTags db uid names).1.users = db.users := by
  intro names
  induction names with
  | nil => exact fun db => ⟨[], by simp [resolveTags], by simp, rfl, rfl, rfl⟩
  | cons nm rest ih =>
    intro db
    obtain ⟨L, hL1, hL2, hL3, hL4, hL5⟩ := ih (getOrCreateTag db uid nm).1
    have hfst : (resolveTags db uid (nm :: rest)).1 = (resolveTags (getOrCreateTag db uid nm).1 uid rest).1 := rfl
    cases hfind : db.tags.find? (fun t => t.user == uid && t.name == nm) with
    | some t =>
      have hg : (getOrCreateTag db uid nm).1 = db := by simp [getOrCreateTag, hfind]
      rw [hg] at hL1 hL3 hL4 hL5
      exact ⟨L, by rw [hfst, hg, hL1], hL2, by rw [hfst, hg, hL3], by rw [hfst, hg, hL4],
        by rw [hfst, hg, hL5]⟩
    | none =>
      have hg : (getOrCreateTag db uid nm).1 =
          { db with tags := db.tags ++ [{ id := db.next_id, name := nm, user := uid }],
                    next_id := db.next_id + 1 } := by
        simp [getOrCreateTag, hfind]
      refine ⟨{ id := db.next_id, name := nm, user := uid } :: L, ?_, ?_, ?_, ?_, ?_⟩
      · rw [hfst, hL1, hg]; simp
      · intro t ht
        rcases List.mem_cons.mp ht with h | h
        · rw [h]
        · exact hL2 t h
      · rw [hfst, hL3, hg]
      · rw [hfst, hL4, hg]
      · rw [hfst, hL5, hg]

/-- `resolveIngredients` only appends ingredient rows, all owned by the
requesting user, and leaves every other table unchanged. -/
theorem resolveIngredients_spec (uid : Nat) : ∀ (names : List String) (db : DB),
    ∃ L : List Ingredient,
      (resolveIngredients db uid names).1.ingredients = db.ingredients ++ L ∧
      (∀ i ∈ L, i.user = uid) ∧
      (resolveIngredients db uid names).1.recipes = db.recipes ∧
      (resolveIngredients db uid names).1.tags = db.tags ∧
      (resolveIngredients db uid names).1.users = db.users := by
  intro names
  induction names with
  | nil => exact fun db => ⟨[], by simp [resolveIngredients], by simp, rfl, rfl, rfl⟩
  | cons nm rest ih =>
    intro db
    obtain ⟨L, hL1, hL2, hL3, hL4, hL5⟩ := ih (getOrCreateIngredient db uid nm).1
    have hfst : (resolveIngredients db uid (nm :: rest)).1 =
        (resolveIngredients (getOrCreateIngredient db uid nm).1 uid rest).1 := rfl
    cases hfind : db.ingredients.find? (fun i => i.user == uid && i.name == nm) with
    | some i =>
      have hg : (getOrCreateIngredient db uid nm).1 = db := by simp [getOrCreateIngredient, hfind]
      rw [hg] at hL1 hL3 hL4 hL5
      exact ⟨L, by rw [hfst, hg, hL1], hL2, by rw [hfst, hg, hL3], by rw [hfst, hg, hL4],
        by rw [hfst, hg, hL5]⟩
    | none =>
      have hg : (getOrCreateIngredient db uid nm).1 =
          { db with ingredients := db.ingredients ++ [{ id := db.next_id, name := nm, user := uid }],
                    next_id := db.next_id + 1 } := by
        simp [getOrCreateIngredient, hfind]
      refine ⟨{ id := db.next_id, name := nm, user := uid } :: L, ?_, ?_, ?_, ?_, ?_⟩
      · rw [hfst, hL1, hg]; simp
      · intro i hi
        rcases List.mem_cons.mp hi with h | h
        · rw [h]
        · exact hL2 i h
      · rw [hfst, hL3, hg]
      · rw [hfst, hL4, hg]
      · rw [hfst, hL5, hg]

/-- A character list without `sep` never splits. -/
theorem rsplitAtChar_eq_none (sep : Char) (cs : List Char) (h : sep ∉ cs) :
    rsplitAtChar sep cs = none := by
  induction cs with
  | nil => rfl
  | cons c cs ih =>
    have hc : ¬(c = sep) := fun hcs => h (hcs ▸ List.mem_cons_self c cs)
    have hcs : sep ∉ cs := fun hin => h (List.mem_cons_of_mem c hin)
    simp only [rsplitAtChar, ih hcs, if_neg hc]

/-- Splitting at the last separator: when `sep` does not occur in `d`,
`l ++ sep :: d` splits into `(l, d)`. -/
theorem rsplitAtChar_last (sep : Char) (l d : List Char) (h : sep ∉ d) :
    rsplitAtChar sep (l ++ sep :: d) = some (l, d) := by
  induction l with
  | nil =>
    show rsplitAtChar sep (sep :: d) = some ([], d)
    simp only [rsplitAtChar, rsplitAtChar_eq_none sep d h]
    simp
  | cons c l ih =>
    have hstep : rsplitAtChar sep ((c :: l) ++ sep :: d) =
        match rsplitAtChar sep (l ++ sep :: d) with
        | some (x, r) => some (c :: x, r)
        | none => if c = sep then some ([], l ++ sep :: d) else none := rfl
    rw [hstep, ih]

/-- The modelled hash never returns its input (the stored field is never
the plaintext). -/
theorem hashPassword_ne (p : String) : hashPassword p ≠ p := by
  intro hcontra
  have hlen := congrArg String.length hcontra
  rw [hashPassword, String.length_append "pbkdf2_sha256$" p] at hlen
  have h14 : ("pbkdf2_sha256$" : String).length = 14 := rfl
  rw [h14] at hlen
  omega

/-- Resolving `["Vegan", "Dinner"]` for a user with no tags creates
exactly the two rows, owned by that user. -/
theorem resolveTags_two_fresh (db : DB) (uid : Nat)
    (hempty : db.tags.filter (fun t => t.user == uid) = []) :
    (resolveTags db uid ["Vegan", "Dinner"]).1.tags =
      db.tags ++ [({ id := db.next_id, name := "Vegan", user := uid } : Tag),
        ({ id := db.next_id + 1, name := "Dinner", user := uid } : Tag)] := by
  have h1 : db.tags.find? (fun t => t.user == uid && t.name == "Vegan") = none :=
    tags_find?_none_of_filter_nil hempty "Vegan"
  have hVD : (("Vegan" : String) == "Dinner") = false := by decide
  have h2 : (db.tags ++ [({ id := db.next_id, name := "Vegan", user := uid } : Tag)]).find?
      (fun t => t.user == uid && t.name == "Dinner") = none := by
    rw [List.find?_append, tags_find?_none_of_filter_nil hempty "Dinner"]
    simp [List.find?, hVD]
  have hstep : (resolveTags db uid ["Vegan", "Dinner"]).1 =
      (getOrCreateTag (getOrCreateTag db uid "Vegan").1 uid "Dinner").1 := rfl
  have hA : (getOrCreateTag db uid "Vegan").1 =
      { db with tags := db.tags ++ [({ id := db.next_id, name := "Vegan", user := uid } : Tag)],
                next_id := db.next_id + 1 } := by
    simp [getOrCreateTag, h1]
  rw [hstep, hA]
  have hB : ({ db with
      tags := db.tags ++ [({ id := db.next_id, name := "Vegan", user := uid } : Tag)],
      next_id := db.next_id + 1 } : DB).tags.find?
        (fun t => t.user == uid && t.name == "Dinner") = none := h2
  simp only [getOrCreateTag, hB]
  simp [List.append_assoc]

/-- Resolving `["Vegan", "Dinner"]` for a user that already owns exactly
those two tags (atop rows of other users) reuses them: the store is
untouched. -/
theorem resolveTags_two_found (db : DB) (uid : Nat) (base : List Tag) (idA idB : Nat)
    (hsplit : db.tags = base ++ [({ id := idA, name := "Vegan", user := uid } : Tag),
      ({ id := idB, name := "Dinner", user := uid } : Tag)])
    (hbase : ∀ t ∈ base, (t.user == uid) = false) :
    (resolveTags db uid ["Vegan", "Dinner"]).1 = db := by
  have hbnoneV : base.find? (fun t => t.user == uid && t.name == "Vegan") = none := by
    rw [List.find?_eq_none]
    intro t ht
    simp [hbase t ht]
  have hbnoneD : base.find? (fun t => t.user == uid && t.name == "Dinner") = none := by
    rw [List.find?_eq_none]
    intro t ht
    simp [hbase t ht]
  have hfA : db.tags.find? (fun t => t.user == uid && t.name == "Vegan") =
      some ({ id := idA, name := "Vegan", user := uid } : Tag) := by
    rw [hsplit, List.find?_append, hbnoneV]
    simp [List.find?]
  have hfB : db.tags.find? (fun t => t.user == uid && t.name == "Dinner") =
      some ({ id := idB, name := "Dinner", user := uid } : Tag) := by
    rw [hsplit, List.find?_append, hbnoneD]
    have hVD : (("Vegan" : String) == "Dinner") = false := by decide
    simp [List.find?, hVD]
  have hstep : (resolveTags db uid ["Vegan", "Dinner"]).1 =
      (getOrCreateTag (getOrCreateTag db uid "Vegan").1 uid "Dinner").1 := rfl
  have hA : (getOrCreateTag db uid "Vegan").1 = db := by
    simp [getOrCreateTag, hfA]
  rw [hstep, hA]
  simp [getOrCreateTag, hfB]

/-- A saved row whose id matches a row already in the table is a member
of the rewritten table. -/
theorem mem_saveRecipeRow (l : List Recipe) (r r2 : Recipe) (hmem : r ∈ l)
    (hid : r2.id = r.id) : r2 ∈ saveRecipeRow l r2 := by
  unfold saveRecipeRow
  have hstep := List.mem_map_of_mem (fun x => if x.id == r2.id then r2 else x) hmem
  simpa [hid] using hstep

/-- Shape of a successful recipe create: it appends the new recipe row
(owned by the requesting user) plus tag and ingredient rows all owned by
the requesting user, and touches nothing else. -/
theorem create_recipe_ok_shape (db : DB) (uid : Nat) (f : RecipeFields)
    (tn inn : List String) (db2 : DB) (rc : Recipe)
    (h : create_recipe db uid f tn inn = Except.ok (db2, rc)) :
    ∃ LT LI,
      (∀ t ∈ LT, t.user = uid) ∧ (∀ i ∈ LI, i.user = uid) ∧
      db2.tags = db.tags ++ LT ∧
      db2.ingredients = db.ingredients ++ LI ∧
      db2.users = db.users ∧
      ((∀ x ∈ db.recipes, x.id < db.next_id) → db2.recipes = db.recipes ++ [rc]) ∧
      rc.user = uid ∧ rc.id = db.next_id := by
  unfold create_recipe at h
  by_cases hval : f.time_minutes ≤ 0 ∨ f.price < 0
  · rw [if_pos hval] at h
    exact absurd h (by simp)
  · rw [if_neg hval] at h
    simp only [Except.ok.injEq, Prod.mk.injEq] at h
    obtain ⟨hdb2, hrc⟩ := h
    obtain ⟨LT, hTtags, hTown, hTrec, hTing, hTusr⟩ :=
      resolveTags_spec uid tn (recipeInsertDB db (newRecipeRow db uid f))
    obtain ⟨LI, hIing, hIown, hIrec, hItags, hIusr⟩ :=
      resolveIngredients_spec uid inn
        (resolveTags (recipeInsertDB db (newRecipeRow db uid f)) uid tn).1
    refine ⟨LT, LI, hTown, hIown, ?_, ?_, ?_, ?_, ?_, ?_⟩
    · rw [← hdb2]
      show (resolveIngredients
          (resolveTags (recipeInsertDB db (newRecipeRow db uid f)) uid tn).1 uid inn).1.tags =
        db.tags ++ LT
      rw [hItags, hTtags]
      rfl
    · rw [← hdb2]
      show (resolveIngredients
          (resolveTags (recipeInsertDB db (newRecipeRow db uid f)) uid tn).1 uid inn).1.ingredients =
        db.ingredients ++ LI
      rw [hIing, hTing]
      rfl
    · rw [← hdb2]
      show (resolveIngredients
          (resolveTags (recipeInsertDB db (newRecipeRow db uid f)) uid tn).1 uid inn).1.users =
        db.users
      rw [hIusr, hTusr]
      rfl
    · intro hfresh
      rw [← hdb2, ← hrc]
      show saveRecipeRow
          (resolveIngredients
            (resolveTags (recipeInsertDB db (newRecipeRow db uid f)) uid tn).1 uid inn).1.recipes _ =
        db.recipes ++ [_]
      rw [hIrec, hTrec]
      show saveRecipeRow (db.recipes ++ [newRecipeRow db uid f]) _ = _
      exact saveRecipeRow_append_fresh db.recipes (newRecipeRow db uid f) _
        (fun x hx => Nat.ne_of_lt (hfresh x hx)) rfl
    · rw [← hrc]
      simp [newRecipeRow]
    · rw [← hrc]
      simp [newRecipeRow]

/-! Claim theorems. -/

/-- Claim C5, counterexample: on an empty email the user store fails with
`ValueError` (the `raise ValueError` in `UserManager.create_user`), which
is not the `ValidationError` the claim names. -/
theorem C5_counterexample :
    create_user DB.empty "" "secret" "" = Except.error Err.valueError ∧
    Err.valueError ≠ Err.validationError :=
  ⟨rfl, by decide⟩

/-- Claim C5 as amended: for every store and password, `create_user` with
an empty email fails with `ValueError` (so no user is persisted: no
updated store is returned). -/
theorem C5_empty_email_fails (db : DB) (password nm : String) :
    create_user db "" password nm = Except.error Err.valueError := rfl

/-- Claim C6: whenever `create_user` succeeds, the persisted user's
password field is the hash of the supplied password — never the supplied
plaintext itself — and that user is in the store. -/
theorem C6_password_stored_hashed (db : DB) (email password nm : String) (db2 : DB) (u : User)
    (h : create_user db email password nm = Except.ok (db2, u)) :
    u.password = hashPassword password ∧ u.password ≠ password ∧ u ∈ db2.users := by
  unfold create_user at h
  by_cases he : email = ""
  · rw [if_pos he] at h
    exact absurd h (by simp)
  · rw [if_neg he] at h
    simp only [Except.ok.injEq, Prod.mk.injEq] at h
    obtain ⟨hdb, hu⟩ := h
    subst hdb
    subst hu
    refine ⟨rfl, hashPassword_ne password, ?_⟩
    simp

/-- Claim C6 witness: concrete creation of `a@b.com` with password
`pw12345`. -/
theorem C6_witness :
    wUser6.password = hashPassword "pw12345" ∧ wUser6.password ≠ "pw12345" ∧
    wUser6 ∈ wDB6.users :=
  C6_password_stored_hashed DB.empty "a@b.com" "pw12345" "" wDB6 wUser6 rfl

/-- Claim C7: for an email `local @ domain` whose domain has no further
`'@'`, the persisted user's email is the input with exactly the domain
lower-cased and the local portion preserved. -/
theorem C7_email_domain_normalized (db : DB) (password nm : String) (l d : List Char)
    (db2 : DB) (u : User) (hd : '@' ∉ d)
    (h : create_user db (String.mk (l ++ '@' :: d)) password nm = Except.ok (db2, u)) :
    u.email = String.mk (l ++ '@' :: d.map Char.toLower) := by
  have hne : String.mk (l ++ '@' :: d) ≠ "" := by
    intro hcontra
    have hdata := congrArg String.data hcontra
    simp only [String.data] at hdata
    exact absurd hdata (by simp)
  unfold create_user at h
  rw [if_neg hne] at h
  simp only [Except.ok.injEq, Prod.mk.injEq] at h
  obtain ⟨hdb, hu⟩ := h
  subst hu
  show normalize_email (String.mk (l ++ '@' :: d)) = _
  unfold normalize_email
  have hdata : (String.mk (l ++ '@' :: d)).data = l ++ '@' :: d := rfl
  rw [hdata, rsplitAtChar_last '@' l d hd]

/-- Claim C7 witness: `USER@EX.com` is persisted as `USER@ex.com`. -/
theorem C7_witness :
    (⟨1, String.mk (['U', 'S', 'E', 'R'] ++ '@' :: (['E', 'X', '.', 'c', 'o', 'm'].map Char.toLower)),
      "n", hashPassword "pw", true, false, false⟩ : User).email =
      String.mk (['U', 'S', 'E', 'R'] ++ '@' :: (['E', 'X', '.', 'c', 'o', 'm'].map Char.toLower)) :=
  C7_email_domain_normalized oneUserDB "pw" "n" ['U', 'S', 'E', 'R'] ['E', 'X', '.', 'c', 'o', 'm']
    { oneUserDB with
      users := oneUserDB.users ++
        [⟨1, String.mk (['U', 'S', 'E', 'R'] ++ '@' :: (['E', 'X', '.', 'c', 'o', 'm'].map Char.toLower)),
          "n", hashPassword "pw", true, false, false⟩]
      next_id := 2 }
    ⟨1, String.mk (['U', 'S', 'E', 'R'] ++ '@' :: (['E', 'X', '.', 'c', 'o', 'm'].map Char.toLower)),
      "n", hashPassword "pw", true, false, false⟩
    (by decide) (by rfl)

/-- Claim C8: a token-serializer authentication failure is the same fixed
`ValidationError` whether the email is unknown or the email exists and the
stored hash mismatches; the two failing responses are identical. -/
theorem C8_auth_failure_indistinguishable (db : DB) (e1 p1 e2 p2 : String) (u : User)
    (h1 : db.users.find? (fun x => x.email == e1) = none)
    (h2 : db.users.find? (fun x => x.email == e2) = some u)
    (h3 : check_password p2 u.password = false) :
    AuthTokenSerializer.validate db e1 p1 = Except.error authFailureMsg ∧
    AuthTokenSerializer.validate db e2 p2 = Except.error authFailureMsg ∧
    AuthTokenSerializer.validate db e1 p1 = AuthTokenSerializer.validate db e2 p2 := by
  unfold AuthTokenSerializer.validate authenticate
  rw [h1, h2]
  simp [h3]

/-- Claim C8 witness: against a one-user store, an unknown email and a
known email with a wrong password fail identically. -/
theorem C8_witness :
    AuthTokenSerializer.validate oneUserDB "ghost@x.com" "whatever" = Except.error authFailureMsg ∧
    AuthTokenSerializer.validate oneUserDB "known@x.com" "wrongpw" = Except.error authFailureMsg ∧
    AuthTokenSerializer.validate oneUserDB "ghost@x.com" "whatever" =
      AuthTokenSerializer.validate oneUserDB "known@x.com" "wrongpw" :=
  C8_auth_failure_indistinguishable oneUserDB "ghost@x.com" "whatever" "known@x.com" "wrongpw"
    knownUser (by rfl) (by rfl) (by rfl)

/-- Claim C1: nested tag names are resolved by get-or-create against the
requesting user's registry — an existing same-named tag owned by the user
is reused and the store is untouched, otherwise exactly one new tag owned
by that user with that name is created — hence creating a recipe with tag
names `["Vegan", "Dinner"]` twice for the same user leaves exactly 2 tag
rows for that user, not 4. -/
theorem C1_nested_tags_get_or_create (db : DB) (uid : Nat) (nm : String) (f : RecipeFields) :
    ((∃ t ∈ db.tags, t.user = uid ∧ t.name = nm) → (getOrCreateTag db uid nm).1 = db) ∧
    ((∀ t ∈ db.tags, ¬(t.user = uid ∧ t.name = nm)) →
      (getOrCreateTag db uid nm).1.tags =
        db.tags ++ [({ id := db.next_id, name := nm, user := uid } : Tag)]) ∧
    (db.tags.filter (fun t => t.user == uid) = [] →
      0 < f.time_minutes → 0 ≤ f.price →
      ∀ db1 r1 db2 r2,
        create_recipe db uid f ["Vegan", "Dinner"] [] = Except.ok (db1, r1) →
        create_recipe db1 uid f ["Vegan", "Dinner"] [] = Except.ok (db2, r2) →
        userTagCount db1 uid = 2 ∧ userTagCount db2 uid = 2) := by
  refine ⟨?_, ?_, ?_⟩
  · rintro ⟨t, ht, hu, hn⟩
    have hsome : (db.tags.find? (fun t => t.user == uid && t.name == nm)).isSome :=
      List.find?_isSome.mpr ⟨t, ht, by simp [hu, hn]⟩
    obtain ⟨t2, ht2⟩ := Option.isSome_iff_exists.mp hsome
    simp [getOrCreateTag, ht2]
  · intro hnone
    have hf : db.tags.find? (fun t => t.user == uid && t.name == nm) = none := by
      rw [List.find?_eq_none]
      intro t ht hcontra
      simp only [Bool.and_eq_true, beq_iff_eq] at hcontra
      exact hnone t ht hcontra
    simp [getOrCreateTag, hf]
  · intro hempty htm hpr db1 r1 db2 r2 h1 h2
    have hval : ¬(f.time_minutes ≤ 0 ∨ f.price < 0) := by
      push_neg
      exact ⟨htm, hpr⟩
    have hbase : ∀ t ∈ db.tags, (t.user == uid) = false := by
      intro t ht
      simpa using List.filter_eq_nil_iff.mp hempty t ht
    unfold create_recipe at h1
    rw [if_neg hval] at h1
    simp only [Except.ok.injEq, Prod.mk.injEq] at h1
    obtain ⟨hdb1, hr1⟩ := h1
    have htags1 : db1.tags =
        db.tags ++ [({ id := db.next_id + 1, name := "Vegan", user := uid } : Tag),
          ({ id := db.next_id + 2, name := "Dinner", user := uid } : Tag)] := by
      rw [← hdb1]
      show (resolveTags (recipeInsertDB db (newRecipeRow db uid f)) uid
        ["Vegan", "Dinner"]).1.tags = _
      rw [resolveTags_two_fresh (recipeInsertDB db (newRecipeRow db uid f)) uid hempty]
      rfl
    have hcount1 : userTagCount db1 uid = 2 := by
      unfold userTagCount
      rw [htags1, List.filter_append, hempty]
      simp [List.filter]
    unfold create_recipe at h2
    rw [if_neg hval] at h2
    simp only [Except.ok.injEq, Prod.mk.injEq] at h2
    obtain ⟨hdb2, hr2⟩ := h2
    have htags2 : db2.tags = db1.tags := by
      rw [← hdb2]
      show (resolveTags (recipeInsertDB db1 (newRecipeRow db1 uid f)) uid
        ["Vegan", "Dinner"]).1.tags = db1.tags
      rw [resolveTags_two_found (recipeInsertDB db1 (newRecipeRow db1 uid f)) uid db.tags
        (db.next_id + 1) (db.next_id + 2) htags1 hbase]
      rfl
    have hcount2 : userTagCount db2 uid = 2 := by
      unfold userTagCount
      rw [htags2]
      exact hcount1
    exact ⟨hcount1, hcount2⟩

/-- Claim C1 witness: reuse of an existing `Kale` tag, fresh creation of
`Vegan` in the empty store, and the double `["Vegan", "Dinner"]` create
from the empty store ending at 2 tag rows both times. -/
theorem C1_witness :
    (getOrCreateTag twoTagDB 1 "Kale").1 = twoTagDB ∧
    (getOrCreateTag DB.empty 1 "Vegan").1.tags =
      DB.empty.tags ++ [({ id := DB.empty.next_id, name := "Vegan", user := 1 } : Tag)] ∧
    userTagCount db1c 1 = 2 ∧ userTagCount db2cc 1 = 2 := by
  refine ⟨(C1_nested_tags_get_or_create twoTagDB 1 "Kale" wFields).1
      ⟨{ id := 1, name := "Kale", user := 1 }, by decide, rfl, rfl⟩,
    (C1_nested_tags_get_or_create DB.empty 1 "Vegan" wFields).2.1 ?_, ?_⟩
  · intro t ht
    exact absurd ht (List.not_mem_nil t)
  · exact (C1_nested_tags_get_or_create DB.empty 1 "Vegan" wFields).2.2 rfl (by decide)
      (by decide) db1c rc1w db2cc rc2w rfl rfl

/-- Claim C2: a partial update whose payload carries `ingredients: []`
(and no `title`/`price` keys) detaches every previously attached
ingredient — the relation is fully replaced by the empty list — while the
recipe's title and price (and any other absent scalar) keep their prior
values, and the updated row is persisted. -/
theorem C2_update_ingredients_full_replacement (db : DB) (uid rid : Nat) (p : RecipePatch)
    (db2 : DB) (r2 r : Recipe)
    (hfindr : findRecipe db uid rid = some r)
    (hing : p.ingredients = some [])
    (htitle : p.title = none) (hprice : p.price = none)
    (h : update_recipe db uid rid p = Except.ok (db2, r2)) :
    r2.ingredients = [] ∧ r2.title = r.title ∧ r2.price = r.price ∧
    (p.description = none → r2.description = r.description) ∧
    (p.time_minutes = none → r2.time_minutes = r.time_minutes) ∧
    (p.link = none → r2.link = r.link) ∧
    r2 ∈ db2.recipes := by
  unfold update_recipe at h
  rw [hfindr, hing, htitle, hprice] at h
  simp only [Option.getD_none] at h
  by_cases hval : p.time_minutes.getD r.time_minutes ≤ 0 ∨ r.price < 0
  · rw [if_pos hval] at h
    exact absurd h (by simp)
  · rw [if_neg hval] at h
    simp only [resolveIngredients, Except.ok.injEq, Prod.mk.injEq] at h
    obtain ⟨hdb2, hr2⟩ := h
    subst hdb2
    subst hr2
    refine ⟨rfl, by simp, by simp, ?_, ?_, ?_, ?_⟩
    · intro hd; simp [hd]
    · intro ht; simp [ht]
    · intro hl; simp [hl]
    · show _ ∈ saveRecipeRow _ _
      have hrec : (match p.tags with
          | some names => resolveTags db uid names
          | none => (db, r.tags)).1.recipes = db.recipes := by
        cases hp : p.tags with
        | none => rfl
        | some names => exact (resolveTags_spec uid names db).choose_spec.2.2.1
      rw [hrec]
      exact mem_saveRecipeRow db.recipes r _ (List.mem_of_find?_eq_some hfindr) rfl

/-- Claim C2 witness: clearing the single attached ingredient of recipe 5
leaves its title `Pie` and price 3 untouched. -/
theorem C2_witness :
    wRecipe.ingredients = [] ∧ wRecipe.title = wRecipeWithIng.title ∧
    wRecipe.price = wRecipeWithIng.price ∧ wRecipe.description = wRecipeWithIng.description ∧
    wRecipe.time_minutes = wRecipeWithIng.time_minutes ∧ wRecipe.link = wRecipeWithIng.link ∧
    wRecipe ∈ wIngDB2.recipes := by
  obtain ⟨h1, h2, h3, h4, h5, h6, h7⟩ :=
    C2_update_ingredients_full_replacement wIngDB 1 5 wPatch wIngDB2 wRecipe wRecipeWithIng
      rfl rfl rfl rfl rfl
  exact ⟨h1, h2, h3, h4 rfl, h5 rfl, h6 rfl, h7⟩

/-- Claim C10: through the user API serializer, a password shorter than 5
characters fails validation — on create no user is created, on update no
user is modified (the operation returns `ValidationError` and no store). -/
theorem C10_short_password_rejected (db : DB) (email nm p : String) (uid : Nat)
    (patch : UserPatch) (hp : p.length < 5) :
    UserSerializer.create db email p nm = Except.error Err.validationError ∧
    (patch.password = some p →
      UserSerializer.update db uid patch = Except.error Err.validationError) := by
  have hv : passwordFieldValid p = false := by
    unfold passwordFieldValid
    simp only [decide_eq_false_iff_not]
    omega
  constructor
  · unfold UserSerializer.create
    rw [hv]
    simp
  · intro hpp
    unfold UserSerializer.update
    rw [hpp]
    simp [hv]

/-- Claim C3: every list and retrieve operation performed as user `b`
returns only rows owned by `b`, and a create performed by a different
user `a` — recipe plus nested tag and ingredient rows — leaves every one
of `b`'s query results unchanged. -/
theorem C3_owner_scoped_queries (db : DB) (a b : Nat) :
    (∀ x ∈ RecipeViewSet.get_queryset db b, x.user = b) ∧
    (∀ t ∈ TagViewSet.get_queryset db b, t.user = b) ∧
    (∀ i ∈ IngredientViewSet.get_queryset db b, i.user = b) ∧
    (∀ rid x, RecipeViewSet.retrieve db b rid = some x → x.user = b) ∧
    (a ≠ b → (∀ x ∈ db.recipes, x.id < db.next_id) →
      ∀ f tn inn db2 rc, create_recipe db a f tn inn = Except.ok (db2, rc) →
        RecipeViewSet.get_queryset db2 b = RecipeViewSet.get_queryset db b ∧
        TagViewSet.get_queryset db2 b = TagViewSet.get_queryset db b ∧
        IngredientViewSet.get_queryset db2 b = IngredientViewSet.get_queryset db b) := by
  have hrec : ∀ x ∈ RecipeViewSet.get_queryset db b, x.user = b := by
    intro x hx
    have hmem := (List.perm_insertionSort recipeOrd _).mem_iff.mp hx
    simpa using List.of_mem_filter hmem
  refine ⟨hrec, ?_, ?_, ?_, ?_⟩
  · intro t ht
    have hmem := (List.perm_insertionSort tagOrd _).mem_iff.mp ht
    simpa using List.of_mem_filter hmem
  · intro i hi
    have hmem := (List.perm_insertionSort ingredientOrd _).mem_iff.mp hi
    simpa using List.of_mem_filter hmem
  · intro rid x hx
    exact hrec x (List.mem_of_find?_eq_some hx)
  · intro hab hfresh f tn inn db2 rc h
    obtain ⟨LT, LI, hTown, hIown, htags, hings, husers, hrecipes, hruser, hrid⟩ :=
      create_recipe_ok_shape db a f tn inn db2 rc h
    refine ⟨?_, ?_, ?_⟩
    · unfold RecipeViewSet.get_queryset
      rw [hrecipes hfresh, filter_append_nil _ _ [rc] ?_]
      intro x hx
      rw [List.mem_singleton.mp hx, hruser]
      exact beq_eq_false_iff_ne.mpr hab
    · unfold TagViewSet.get_queryset
      rw [htags, filter_append_nil _ _ LT ?_]
      intro t ht
      rw [hTown t ht]
      exact beq_eq_false_iff_ne.mpr hab
    · unfold IngredientViewSet.get_queryset
      rw [hings, filter_append_nil _ _ LI ?_]
      intro i hi
      rw [hIown i hi]
      exact beq_eq_false_iff_ne.mpr hab

/-- Claim C3 witness: user 2's store `w3DB`; user 2's recipe 9 is the
retrieval result, and user 1's create (with nested `Vegan` tag and `Salt`
ingredient) leaves all of user 2's listings unchanged. -/
theorem C3_witness :
    r9.user = 2 ∧
    RecipeViewSet.get_queryset db2c3 2 = RecipeViewSet.get_queryset w3DB 2 ∧
    TagViewSet.get_queryset db2c3 2 = TagViewSet.get_queryset w3DB 2 ∧
    IngredientViewSet.get_queryset db2c3 2 = IngredientViewSet.get_queryset w3DB 2 := by
  obtain ⟨h1, h2, h3, h4, h5⟩ := C3_owner_scoped_queries w3DB 1 2
  obtain ⟨g1, g2, g3⟩ := h5 (by decide) (by decide) wFields ["Vegan"] ["Salt"] db2c3 rc3 (by rfl)
  exact ⟨h4 9 r9 (by rfl), g1, g2, g3⟩

/-- Concrete evaluation of the tag queryset over `twoTagDB`. -/
theorem twoTagDB_tag_queryset : TagViewSet.get_queryset twoTagDB 1 =
    [{ id := 2, name := "Vanilla", user := 1 }, { id := 1, name := "Kale", user := 1 }] := by
  have hnot : ¬ ("Vanilla" ≤ "Kale") := by
    rw [String.le_iff_toList_le]
    decide
  unfold TagViewSet.get_queryset twoTagDB
  have hfil : List.filter (fun t : Tag => t.user == 1)
      [{ id := 1, name := "Kale", user := 1 }, { id := 2, name := "Vanilla", user := 1 }] =
      [{ id := 1, name := "Kale", user := 1 }, { id := 2, name := "Vanilla", user := 1 }] := rfl
  rw [hfil]
  have hord : ¬ tagOrd { id := 1, name := "Kale", user := 1 }
      { id := 2, name := "Vanilla", user := 1 } := hnot
  simp [List.insertionSort, List.orderedInsert, hord]

/-- Claim C4, counterexample: user 1 owns tags `Kale` and `Vanilla`, and
the tag list comes back `["Vanilla", "Kale"]` — `order_by('-name')` in
`BaseRecipeAttrViewSet.get_queryset` is descending, not the ascending
order the claim states. -/
theorem C4_counterexample :
    (TagViewSet.get_queryset twoTagDB 1).map Tag.name = ["Vanilla", "Kale"] ∧
    ascendingByName ((TagViewSet.get_queryset twoTagDB 1).map Tag.name) = false := by
  have hnot : ¬ ("Vanilla" ≤ "Kale") := by
    rw [String.le_iff_toList_le]
    decide
  have hq := twoTagDB_tag_queryset
  rw [hq]
  refine ⟨rfl, ?_⟩
  show (decide ("Vanilla" ≤ "Kale") && ascendingByName ["Kale"]) = false
  rw [decide_eq_false hnot]
  rfl

/-- Claim C4 as amended: the tag list and the ingredient list return
exactly the requesting user's rows sorted in DESCENDING order by name
(`order_by('-name')`). -/
theorem C4_attr_lists_sorted_desc_name (db : DB) (uid : Nat) :
    List.Sorted tagOrd (TagViewSet.get_queryset db uid) ∧
    (TagViewSet.get_queryset db uid).Perm (db.tags.filter (fun t => t.user == uid)) ∧
    (∀ t ∈ TagViewSet.get_queryset db uid, t.user = uid) ∧
    List.Sorted ingredientOrd (IngredientViewSet.get_queryset db uid) ∧
    (IngredientViewSet.get_queryset db uid).Perm (db.ingredients.filter (fun i => i.user == uid)) ∧
    (∀ i ∈ IngredientViewSet.get_queryset db uid, i.user = uid) := by
  refine ⟨List.sorted_insertionSort tagOrd _, List.perm_insertionSort tagOrd _, ?_,
    List.sorted_insertionSort ingredientOrd _, List.perm_insertionSort ingredientOrd _, ?_⟩
  · intro t ht
    have hmem := (List.perm_insertionSort tagOrd _).mem_iff.mp ht
    simpa using List.of_mem_filter hmem
  · intro i hi
    have hmem := (List.perm_insertionSort ingredientOrd _).mem_iff.mp hi
    simpa using List.of_mem_filter hmem

/-- Claim C4 witness (amended form): the concrete two-tag store listing
is descending-sorted, a permutation of the user's rows, owned by user 1. -/
theorem C4_witness :
    List.Sorted tagOrd (TagViewSet.get_queryset twoTagDB 1) ∧
    (TagViewSet.get_queryset twoTagDB 1).Perm (twoTagDB.tags.filter (fun t => t.user == 1)) ∧
    ({ id := 2, name := "Vanilla", user := 1 } : Tag).user = 1 ∧
    List.Sorted ingredientOrd (IngredientViewSet.get_queryset twoTagDB 1) := by
  obtain ⟨h1, h2, h3, h4, h5, h6⟩ := C4_attr_lists_sorted_desc_name twoTagDB 1
  refine ⟨h1, h2, h3 _ ?_, h4⟩
  rw [twoTagDB_tag_queryset]
  simp

/-- Claim C9: the recipe list is exactly the requesting user's recipes,
sorted by descending id, and appending another user's recipe row leaves
the listing unchanged. -/
theorem C9_recipe_list_desc_id (db : DB) (uid : Nat) (r : Recipe) :
    List.Sorted recipeOrd (RecipeViewSet.get_queryset db uid) ∧
    (RecipeViewSet.get_queryset db uid).Perm (db.recipes.filter (fun x => x.user == uid)) ∧
    (∀ x ∈ RecipeViewSet.get_queryset db uid, x.user = uid) ∧
    (r.user ≠ uid →
      RecipeViewSet.get_queryset { db with recipes := db.recipes ++ [r] } uid =
        RecipeViewSet.get_queryset db uid) := by
  refine ⟨List.sorted_insertionSort recipeOrd _, List.perm_insertionSort recipeOrd _, ?_, ?_⟩
  · intro x hx
    have hmem := (List.perm_insertionSort recipeOrd _).mem_iff.mp hx
    simpa using List.of_mem_filter hmem
  · intro hr
    unfold RecipeViewSet.get_queryset
    have hrec : ({ db with recipes := db.recipes ++ [r] } : DB).recipes = db.recipes ++ [r] := rfl
    rw [hrec, filter_append_nil _ _ [r] ?_]
    intro x hx
    rw [List.mem_singleton.mp hx]
    simp [hr]

/-- Claim C9 witness: concrete one-recipe store for user 1, with user 2's
recipe appended. -/
theorem C9_witness :
    List.Sorted recipeOrd (RecipeViewSet.get_queryset wRecipeDB 1) ∧
    (RecipeViewSet.get_queryset wRecipeDB 1).Perm (wRecipeDB.recipes.filter (fun x => x.user == 1)) ∧
    wRecipe.user = 1 ∧
    RecipeViewSet.get_queryset { wRecipeDB with recipes := wRecipeDB.recipes ++ [otherRecipe] } 1 =
      RecipeViewSet.get_queryset wRecipeDB 1 := by
  obtain ⟨h1, h2, h3, h4⟩ := C9_recipe_list_desc_id wRecipeDB 1 otherRecipe
  refine ⟨h1, h2, h3 wRecipe ?_, h4 (by decide)⟩
  show wRecipe ∈ List.insertionSort recipeOrd (wRecipeDB.recipes.filter (fun x => x.user == 1))
  decide

/-- Claim C10 witness: the four-character password `abcd` is rejected on
create and on update. -/
theorem C10_witness :
    UserSerializer.create oneUserDB "new@x.com" "abcd" "N" = Except.error Err.validationError ∧
    UserSerializer.update oneUserDB 0 (UserPatch.mk none none (some "abcd")) =
      Except.error Err.validationError :=
  ⟨(C10_short_password_rejected oneUserDB "new@x.com" "N" "abcd" 0
      (UserPatch.mk none none (some "abcd")) (by decide)).1,
    (C10_short_password_rejected oneUserDB "new@x.com" "N" "abcd" 0
      (UserPatch.mk none none (some "abcd")) (by decide)).2 rfl⟩

end RecipeApp
